import Mathlib

/-!
Verification of the two adapter functions and the top-level script of
`examples/notebooks/Estimators.ipynb`: the TensorFlow input adapter
`input_fn`, the metric aggregator `mean_auc`, and the linear structure of
the notebook.  TensorFlow graph construction is embedded symbolically:
a `Tensor` is the expression tree the notebook code builds, and `Op` is a
TensorFlow update operation.  A separate evaluator `sem` interprets the
metric expressions as rational values given an interpretation of the
underlying per-task AUC computation.
-/

namespace Estimators

/-- A DeepChem dataset handle.  The notebook treats datasets as opaque
objects owned by the library; only the identity matters here. -/
structure Dataset where
  id : Nat
deriving DecidableEq, Repr

/-- Symbolic TensorFlow tensors: exactly the expression forms the notebook
builds.  `iterX`/`iterY`/`iterW` are the three components returned by
`dataset.make_iterator(batch_size, epochs).get_next()`; `col t i` is the
column slice `t[:, i]`; `aucMetric` is the metric value returned by
`tf.metrics.auc`; `stack` is `tf.stack`; `reduceMean` is `tf.reduce_mean`. -/
inductive Tensor where
  | iterX (dataset : Nat) (batch_size : Nat) (epochs : Nat)
  | iterY (dataset : Nat) (batch_size : Nat) (epochs : Nat)
  | iterW (dataset : Nat) (batch_size : Nat) (epochs : Nat)
  | col (t : Tensor) (i : Nat)
  | aucMetric (labels : Tensor) (predictions : Tensor) (weights : Tensor)
  | stack (ts : List Tensor)
  | reduceMean (t : Tensor)

/-- Symbolic TensorFlow update operations: `aucUpdate` is the update op
returned by `tf.metrics.auc`, `group` is `tf.group`. -/
inductive Op where
  | aucUpdate (labels : Tensor) (predictions : Tensor) (weights : Tensor)
  | group (ops : List Op)

/-- The iterator produced by `dataset.make_iterator(batch_size=..., epochs=...)`. -/
structure Iterator where
  dataset : Dataset
  batch_size : Nat
  epochs : Nat
deriving DecidableEq, Repr

/-- `Dataset.make_iterator`: records the dataset and the batching parameters. -/
def Dataset.make_iterator (d : Dataset) (batch_size : Nat) (epochs : Nat) : Iterator :=
  ⟨d, batch_size, epochs⟩

/-- `Iterator.get_next()`: yields the symbolic feature, label and weight
tensors pulled from the iterator, in the order the notebook unpacks them
(`x, y, weights = ...get_next()`). -/
def Iterator.get_next (it : Iterator) : Tensor × Tensor × Tensor :=
  (Tensor.iterX it.dataset.id it.batch_size it.epochs,
   Tensor.iterY it.dataset.id it.batch_size it.epochs,
   Tensor.iterW it.dataset.id it.batch_size it.epochs)

/-- The notebook's input adapter:
```
def input_fn(dataset, epochs):
    x, y, weights = dataset.make_iterator(batch_size=100, epochs=epochs).get_next()
    return {'x': x, 'weights': weights}, y
```
The returned dict is embedded as an association list preserving insertion
order. -/
def input_fn (dataset : Dataset) (epochs : Nat) : List (String × Tensor) × Tensor :=
  let xyw := (dataset.make_iterator 100 epochs).get_next
  ([("x", xyw.1), ("weights", xyw.2.2)], xyw.2.1)

/-- `tf.metrics.auc(labels, predictions, weights)`: returns the metric
tensor and the update operation. -/
def tf_metrics_auc (labels predictions weights : Tensor) : Tensor × Op :=
  (Tensor.aucMetric labels predictions weights, Op.aucUpdate labels predictions weights)

/-- The notebook's metric aggregator (with the captured global `n_tasks`
made an explicit first argument):
```
def mean_auc(labels, predictions, weights):
    metric_ops = []
    update_ops = []
    for i in range(n_tasks):
        metric, update = tf.metrics.auc(labels[:,i], predictions[:,i], weights[:,i])
        metric_ops.append(metric)
        update_ops.append(update)
    mean_metric = tf.reduce_mean(tf.stack(metric_ops))
    update_all = tf.group(*update_ops)
    return mean_metric, update_all
```
The loop with its two local accumulator lists becomes an explicit fold. -/
def mean_auc (n_tasks : Nat) (labels predictions weights : Tensor) : Tensor × Op :=
  let ops := (List.range n_tasks).foldl
    (fun (acc : List Tensor × List Op) i =>
      let mu := tf_metrics_auc (Tensor.col labels i) (Tensor.col predictions i)
        (Tensor.col weights i)
      (acc.1 ++ [mu.1], acc.2 ++ [mu.2]))
    ([], [])
  let mean_metric := Tensor.reduceMean (Tensor.stack ops.1)
  let update_all := Op.group ops.2
  (mean_metric, update_all)

/- Semantics of the metric expressions built by `mean_auc`, given an
interpretation `auc` of what `tf.metrics.auc` computes on three argument
tensors.  A tensor denotes a list of scalar values: an AUC metric denotes
one value, `stack` concatenates, `reduceMean` averages.  Other tensors
carry no scalar metric value here. -/
mutual

def sem (auc : Tensor → Tensor → Tensor → ℚ) : Tensor → List ℚ
  | Tensor.aucMetric l p w => [auc l p w]
  | Tensor.stack ts => semList auc ts
  | Tensor.reduceMean t => [(sem auc t).sum / ((sem auc t).length : ℚ)]
  | Tensor.iterX _ _ _ => []
  | Tensor.iterY _ _ _ => []
  | Tensor.iterW _ _ _ => []
  | Tensor.col _ _ => []

def semList (auc : Tensor → Tensor → Tensor → ℚ) : List Tensor → List ℚ
  | [] => []
  | t :: ts => sem auc t ++ semList auc ts

end

/- Structural skeleton of a tensor: erases all leaf data (dataset ids,
batching parameters), keeping only the shape of the operation tree.  Two
computations with equal skeletons performed the same sequence of
TensorFlow operations. -/
mutual

def Tensor.skeleton : Tensor → Tensor
  | Tensor.iterX _ _ _ => Tensor.iterX 0 0 0
  | Tensor.iterY _ _ _ => Tensor.iterY 0 0 0
  | Tensor.iterW _ _ _ => Tensor.iterW 0 0 0
  | Tensor.col t i => Tensor.col t.skeleton i
  | Tensor.aucMetric l p w => Tensor.aucMetric l.skeleton p.skeleton w.skeleton
  | Tensor.stack ts => Tensor.stack (skeletonList ts)
  | Tensor.reduceMean t => Tensor.reduceMean t.skeleton

def skeletonList : List Tensor → List Tensor
  | [] => []
  | t :: ts => t.skeleton :: skeletonList ts

end

/- Skeleton of an update operation (leaf data of the involved tensors
erased). -/
mutual

def Op.skeleton : Op → Op
  | Op.aucUpdate l p w => Op.aucUpdate l.skeleton p.skeleton w.skeleton
  | Op.group ops => Op.group (opSkeletonList ops)

def opSkeletonList : List Op → List Op
  | [] => []
  | o :: os => o.skeleton :: opSkeletonList os

end

/- All column indices at which a tensor expression slices (`t[:, i]`). -/
mutual

def Tensor.colIndices : Tensor → List Nat
  | Tensor.col t i => i :: t.colIndices
  | Tensor.aucMetric l p w => l.colIndices ++ p.colIndices ++ w.colIndices
  | Tensor.stack ts => colIndicesList ts
  | Tensor.reduceMean t => t.colIndices
  | Tensor.iterX _ _ _ => []
  | Tensor.iterY _ _ _ => []
  | Tensor.iterW _ _ _ => []

def colIndicesList : List Tensor → List Nat
  | [] => []
  | t :: ts => t.colIndices ++ colIndicesList ts

end

/- All column indices at which an update operation slices. -/
mutual

def Op.colIndices : Op → List Nat
  | Op.aucUpdate l p w => l.colIndices ++ p.colIndices ++ w.colIndices
  | Op.group ops => opColIndicesList ops

def opColIndicesList : List Op → List Nat
  | [] => []
  | o :: os => o.colIndices ++ opColIndicesList os

end

/-- Number of per-task metric tensors stacked under the returned mean:
the number of loop iterations `mean_auc` performed. -/
def stackedLength : Tensor → Nat
  | Tensor.reduceMean (Tensor.stack ts) => ts.length
  | _ => 0

/-- Column extraction from a concrete data matrix (a list of rows of
rationals), guarded: defined only when every row has a column `i`. -/
def getCol (m : List (List ℚ)) (i : Nat) : Option (List ℚ) :=
  if m.all fun row => decide (i < row.length) then
    some (m.map fun row => row.getD i 0)
  else
    none

/-- Unguarded column `i` of a concrete data matrix. -/
def matCol (m : List (List ℚ)) (i : Nat) : List ℚ :=
  m.map fun row => row.getD i 0

/-- Interpretation of `tf.metrics.auc` over concrete data: the per-column
ground AUC computation `f` applied to the sliced columns of the concrete
labels, predictions and weights matrices. -/
def aucInterp (f : List ℚ → List ℚ → List ℚ → ℚ) (L P W : List (List ℚ)) :
    Tensor → Tensor → Tensor → ℚ
  | Tensor.col _ i, Tensor.col _ j, Tensor.col _ k =>
      f (matCol L i) (matCol P j) (matCol W k)
  | _, _, _ => 0

/-- The evaluation statistic the estimator path realizes on concrete data:
the value of the metric tensor returned by `mean_auc`, under the
interpretation of `tf.metrics.auc` as the ground AUC `f` on the sliced
columns of the matrices `L`, `P`, `W`. -/
def estimatorMeanAuc (f : List ℚ → List ℚ → List ℚ → ℚ)
    (L P W : List (List ℚ)) (n_tasks : Nat) (labels predictions weights : Tensor) :
    List ℚ :=
  sem (aucInterp f L P W) (mean_auc n_tasks labels predictions weights).1

/-- A `tf.feature_column.numeric_column` object: a name and a shape. -/
structure FeatureColumn where
  name : String
  shape : Nat
deriving DecidableEq, Repr

/-- `tf.feature_column.numeric_column(name, shape=(shape,))`. -/
def numeric_column (name : String) (shape : Nat) : FeatureColumn :=
  ⟨name, shape⟩

/-- `x_col = tf.feature_column.numeric_column('x', shape=(n_features,))`. -/
def x_col (n_features : Nat) : FeatureColumn :=
  numeric_column ("x") n_features

/-- `weight_col = tf.feature_column.numeric_column('weights', shape=(n_tasks,))`. -/
def weight_col (n_tasks : Nat) : FeatureColumn :=
  numeric_column ("weights") n_tasks

/-- The arguments the notebook passes to `model.make_estimator`. -/
structure EstimatorArgs where
  feature_columns : List FeatureColumn
  weight_column : FeatureColumn
  metric_names : List String
  model_dir : String
deriving DecidableEq, Repr

/-- The `make_estimator` call of the notebook:
`model.make_estimator(feature_columns=[x_col], weight_column=weight_col,
metrics={'mean_auc': mean_auc}, model_dir='estimator')`. -/
def estimatorArgs (n_features n_tasks : Nat) : EstimatorArgs :=
  { feature_columns := [x_col n_features]
    weight_column := weight_col n_tasks
    metric_names := ["mean_auc"]
    model_dir := "estimator" }

/-- Fallible variant of `input_fn`: the one library call it makes
(`make_iterator(...).get_next()`) is a parameter that may fail.  The body
authors no handling of its own: it destructures the result and builds the
returned pair, exactly as the source does. -/
def input_fnE (get_next : Except String (Tensor × Tensor × Tensor)) :
    Except String (List (String × Tensor) × Tensor) := do
  let xyw ← get_next
  pure ([("x", xyw.1), ("weights", xyw.2.2)], xyw.2.1)

/-- Fallible variant of `mean_auc`: the library call `tf.metrics.auc` is a
parameter that may fail.  The body is the same loop with its two local
accumulator lists; it authors no handling of its own. -/
def mean_aucE (auc : Tensor → Tensor → Tensor → Except String (Tensor × Op))
    (n_tasks : Nat) (labels predictions weights : Tensor) :
    Except String (Tensor × Op) := do
  let ops ← (List.range n_tasks).foldlM
    (fun (acc : List Tensor × List Op) i => do
      let mu ← auc (Tensor.col labels i) (Tensor.col predictions i)
        (Tensor.col weights i)
      pure (acc.1 ++ [mu.1], acc.2 ++ [mu.2]))
    (([], []) : List Tensor × List Op)
  pure (Tensor.reduceMean (Tensor.stack ops.1), Op.group ops.2)

/-- The notebook's global frame at the point the two adapter functions run:
the variables bound at module level that the closures can see.  `mean_auc`
reads only `n_tasks` from it; `input_fn` reads nothing from it. -/
structure Globals where
  n_tasks : Nat
  n_features : Nat
  train_dataset : Dataset
  test_dataset : Dataset
deriving DecidableEq, Repr

/-- State-passing translation of a call to `input_fn`: the global frame is
threaded through the call.  The body binds only its own locals (`x`, `y`,
`weights`), so the outgoing global frame is the incoming one. -/
def input_fnG (g : Globals) (dataset : Dataset) (epochs : Nat) :
    Globals × (List (String × Tensor) × Tensor) :=
  (g, input_fn dataset epochs)

/-- State-passing translation of a call to `mean_auc`: the global frame is
threaded through the call.  The body reads `n_tasks` from the global frame
and binds only its own locals (the two accumulator lists and the two
result tensors), so the outgoing global frame is the incoming one. -/
def mean_aucG (g : Globals) (labels predictions weights : Tensor) :
    Globals × (Tensor × Op) :=
  (g, mean_auc g.n_tasks labels predictions weights)

/-- The stages of the notebook, in the vocabulary of the spec: loading the
dataset, building the model, the DeepChem train/evaluate/print path, the
definitions feeding the estimator, and the estimator
train/evaluate/print path. -/
inductive Stage where
  | load_data
  | build_model
  | dc_fit
  | dc_evaluate_test
  | dc_print_metrics
  | define_input_fn
  | define_feature_columns
  | define_mean_auc
  | make_estimator
  | estimator_train
  | estimator_evaluate_test
  | estimator_print_metrics
deriving DecidableEq, Repr, Fintype

/-- The notebook's cells in execution order, one event per operation:
cell 1 loads the data and builds the model; cell 3 fits, evaluates and
prints via the DeepChem API; cells 5, 7, 9, 11 define `input_fn`, the
feature columns, `mean_auc` and the estimator; cell 13 trains, evaluates
and prints via the estimator API. -/
def notebookTrace : List Stage :=
  [Stage.load_data, Stage.build_model,
   Stage.dc_fit, Stage.dc_evaluate_test, Stage.dc_print_metrics,
   Stage.define_input_fn, Stage.define_feature_columns,
   Stage.define_mean_auc, Stage.make_estimator,
   Stage.estimator_train, Stage.estimator_evaluate_test,
   Stage.estimator_print_metrics]

/-- The headline statistic printed by the DeepChem evaluation cell, as
recorded in the notebook's stored output:
`{'mean-roc_auc_score': 0.7611497720178306}`. -/
def dcRecordedMean : ℚ :=
  7611497720178306 / 10000000000000000

/-- The headline statistic printed by the estimator evaluation cell, as
recorded in the notebook's stored output:
`{'loss': 6348.7153, 'mean_auc': 0.7047531, 'global_step': 6300}`. -/
def estRecordedMeanAuc : ℚ :=
  7047531 / 10000000

/-- Modelled from the spec: the evaluation statistic of the DeepChem path,
`model.evaluate(test_dataset, [Metric(roc_auc_score, np.mean)])`.
`Model.evaluate` itself is not under src; the spec and the notebook's
narration say it computes one ROC AUC per task on the test set and
averages the scores over the tasks.  `task_auc i` is the per-task ROC AUC
the library computes for task `i`. -/
def dc_evaluate_stat (n_tasks : Nat) (task_auc : Nat → ℚ) : ℚ :=
  (((List.range n_tasks).map task_auc).sum) / (n_tasks : ℚ)

/-! Helper lemmas. -/

/-- Folding list appends of the two components of `f` over `xs` produces
the two mapped lists. -/
theorem foldl_append_pair {α β : Type} (f : Nat → α × β) (xs : List Nat)
    (a : List α) (b : List β) :
    xs.foldl (fun acc i => (acc.1 ++ [(f i).1], acc.2 ++ [(f i).2])) (a, b)
      = (a ++ xs.map (fun i => (f i).1), b ++ xs.map (fun i => (f i).2)) := by
  induction xs generalizing a b with
  | nil => simp
  | cons x xs ih => simp [List.foldl_cons, ih]

/-- Closed form of `mean_auc`: the loop produces the per-task metric list
and the per-task update list over `List.range n_tasks`. -/
theorem mean_auc_eq (n : Nat) (l p w : Tensor) :
    mean_auc n l p w
      = (Tensor.reduceMean (Tensor.stack ((List.range n).map fun i =>
            Tensor.aucMetric (Tensor.col l i) (Tensor.col p i) (Tensor.col w i))),
         Op.group ((List.range n).map fun i =>
            Op.aucUpdate (Tensor.col l i) (Tensor.col p i) (Tensor.col w i))) := by
  unfold mean_auc
  rw [foldl_append_pair (fun i => tf_metrics_auc (Tensor.col l i)
    (Tensor.col p i) (Tensor.col w i))]
  simp [tf_metrics_auc]

/-- `semList` on a list of per-task AUC metric tensors gives the list of
interpreted per-task values. -/
theorem semList_aucMetric (auc : Tensor → Tensor → Tensor → ℚ)
    (l p w : Tensor) (xs : List Nat) :
    semList auc (xs.map fun i =>
        Tensor.aucMetric (Tensor.col l i) (Tensor.col p i) (Tensor.col w i))
      = xs.map fun i => auc (Tensor.col l i) (Tensor.col p i) (Tensor.col w i) := by
  induction xs with
  | nil => rfl
  | cons x xs ih => simp [semList, sem, ih]

/-- Value of the metric tensor returned by `mean_auc`: the sum of the
interpreted per-task AUC values divided by the number of tasks. -/
theorem sem_mean_auc (auc : Tensor → Tensor → Tensor → ℚ) (n : Nat)
    (l p w : Tensor) :
    sem auc (mean_auc n l p w).1
      = [(((List.range n).map fun i =>
            auc (Tensor.col l i) (Tensor.col p i) (Tensor.col w i)).sum) / (n : ℚ)] := by
  rw [mean_auc_eq]
  simp [sem, semList_aucMetric]

/-- `skeletonList` is mapping `Tensor.skeleton`. -/
theorem skeletonList_eq_map (ts : List Tensor) :
    skeletonList ts = ts.map Tensor.skeleton := by
  induction ts with
  | nil => rfl
  | cons t ts ih => simp [skeletonList, ih]

/-- `opSkeletonList` is mapping `Op.skeleton`. -/
theorem opSkeletonList_eq_map (os : List Op) :
    opSkeletonList os = os.map Op.skeleton := by
  induction os with
  | nil => rfl
  | cons o os ih => simp [opSkeletonList, ih]

/-- Any column index appearing in the stacked per-task metric tensors of
arguments that slice nowhere themselves is one of the loop indices. -/
theorem mem_colIndicesList_aucMetric (l p w : Tensor)
    (hl : l.colIndices = []) (hp : p.colIndices = []) (hw : w.colIndices = [])
    (xs : List Nat) (j : Nat)
    (hj : j ∈ colIndicesList (xs.map fun i =>
        Tensor.aucMetric (Tensor.col l i) (Tensor.col p i) (Tensor.col w i))) :
    j ∈ xs := by
  induction xs with
  | nil => simp [colIndicesList] at hj
  | cons x xs ih =>
      simp only [List.map_cons] at hj
      have hcons : ∀ (t : Tensor) (ts : List Tensor),
          colIndicesList (t :: ts) = t.colIndices ++ colIndicesList ts := by
        intro t ts
        simp [colIndicesList]
      rw [hcons, List.mem_append] at hj
      rcases hj with h | h
      · simp only [Tensor.colIndices, hl, hp, hw, List.append_nil,
          List.mem_append, List.mem_cons, List.not_mem_nil, or_false] at h
        have hx : j = x := by tauto
        simp [hx]
      · exact List.mem_cons_of_mem x (ih h)

/-- Any column index appearing in the grouped per-task update operations of
arguments that slice nowhere themselves is one of the loop indices. -/
theorem mem_opColIndicesList_aucUpdate (l p w : Tensor)
    (hl : l.colIndices = []) (hp : p.colIndices = []) (hw : w.colIndices = [])
    (xs : List Nat) (j : Nat)
    (hj : j ∈ opColIndicesList (xs.map fun i =>
        Op.aucUpdate (Tensor.col l i) (Tensor.col p i) (Tensor.col w i))) :
    j ∈ xs := by
  induction xs with
  | nil => simp [opColIndicesList] at hj
  | cons x xs ih =>
      simp only [List.map_cons] at hj
      have hcons : ∀ (o : Op) (os : List Op),
          opColIndicesList (o :: os) = o.colIndices ++ opColIndicesList os := by
        intro o os
        simp [opColIndicesList]
      rw [hcons, List.mem_append] at hj
      rcases hj with h | h
      · simp only [Op.colIndices, Tensor.colIndices, hl, hp, hw, List.append_nil,
          List.mem_append, List.mem_cons, List.not_mem_nil, or_false] at h
        have hx : j = x := by tauto
        simp [hx]
      · exact List.mem_cons_of_mem x (ih h)

/-- Sum of a mapped `List.range` as a `Finset.range` sum. -/
theorem list_range_map_sum (g : Nat → ℚ) (n : Nat) :
    ((List.range n).map g).sum = ∑ i ∈ Finset.range n, g i := by
  induction n with
  | zero => simp
  | succ k ih =>
      rw [List.range_succ, Finset.sum_range_succ]
      simp [ih]

/-- A monadic fold whose step never fails is the pure fold. -/
theorem foldlM_pure {α β : Type} (fM : α → β → Except String α) (f : α → β → α)
    (h : ∀ a b, fM a b = pure (f a b)) (xs : List β) (init : α) :
    xs.foldlM fM init = pure (xs.foldl f init) := by
  induction xs generalizing init with
  | nil => rfl
  | cons x xs ih => simp [List.foldlM_cons, List.foldl_cons, h, ih]

/-- Closed form of the estimator path's realized statistic on concrete
data matrices. -/
theorem estimatorMeanAuc_eq (f : List ℚ → List ℚ → List ℚ → ℚ)
    (L P W : List (List ℚ)) (n : Nat) (l p w : Tensor) :
    estimatorMeanAuc f L P W n l p w
      = [(((List.range n).map fun i =>
            f (matCol L i) (matCol P i) (matCol W i)).sum) / (n : ℚ)] := by
  unfold estimatorMeanAuc
  rw [sem_mean_auc]
  simp [aucInterp]

/-- If every `tf.metrics.auc` call fails with error `e`, `mean_aucE`
returns exactly that error (provided the loop runs at least once). -/
theorem mean_aucE_error (e : String)
    (auc : Tensor → Tensor → Tensor → Except String (Tensor × Op))
    (hauc : ∀ a b c, auc a b c = Except.error e)
    (k : Nat) (l p w : Tensor) :
    mean_aucE auc (k + 1) l p w = Except.error e := by
  unfold mean_aucE
  rw [List.range_succ_eq_map]
  simp only [List.foldlM_cons, hauc]
  rfl

/-- If every `tf.metrics.auc` call succeeds with the pure result,
`mean_aucE` succeeds with exactly the pure `mean_auc` result. -/
theorem mean_aucE_ok (n : Nat) (l p w : Tensor) :
    mean_aucE (fun a b c => Except.ok (tf_metrics_auc a b c)) n l p w
      = Except.ok (mean_auc n l p w) := by
  unfold mean_aucE mean_auc
  rw [foldlM_pure
    (fun (acc : List Tensor × List Op) i => do
      let mu ← (fun a b c => Except.ok (tf_metrics_auc a b c))
        (Tensor.col l i) (Tensor.col p i) (Tensor.col w i)
      pure (acc.1 ++ [mu.1], acc.2 ++ [mu.2]))
    (fun (acc : List Tensor × List Op) i =>
      let mu := tf_metrics_auc (Tensor.col l i) (Tensor.col p i)
        (Tensor.col w i)
      (acc.1 ++ [mu.1], acc.2 ++ [mu.2]))
    (fun _ _ => rfl)]
  rfl

/-! Claim theorems. -/

/-- C1: For every dataset handle and every epoch count, `input_fn` returns a
pair whose first element is a mapping with the feature tensor under the key
"x" and the weight tensor under the key "weights", and whose second element
is the label tensor, where all three tensors are obtained from
`dataset.make_iterator(batch_size=100, epochs=epochs).get_next()`: fixed-size
batches of 100 for exactly the requested number of epochs. -/
theorem input_fn_spec (d : Dataset) (epochs : Nat) :
    input_fn d epochs
      = ([("x", ((d.make_iterator 100 epochs).get_next).1),
          ("weights", ((d.make_iterator 100 epochs).get_next).2.2)],
         ((d.make_iterator 100 epochs).get_next).2.1) := rfl

/-- C2: `mean_auc` computes one AUC statistic per task — task `i` from column
`i` of labels, predictions and weights — and returns the arithmetic mean of
the `n_tasks` per-task AUC metrics (under any interpretation `auc` of the
per-task AUC computation, the metric's value is the sum of the per-task
values divided by `n_tasks`) together with a single combined update
operation grouping all `n_tasks` per-task update operations. -/
theorem mean_auc_spec (n : Nat) (l p w : Tensor)
    (auc : Tensor → Tensor → Tensor → ℚ) :
    (mean_auc n l p w).1
        = Tensor.reduceMean (Tensor.stack ((List.range n).map fun i =>
            Tensor.aucMetric (Tensor.col l i) (Tensor.col p i) (Tensor.col w i)))
    ∧ (mean_auc n l p w).2
        = Op.group ((List.range n).map fun i =>
            Op.aucUpdate (Tensor.col l i) (Tensor.col p i) (Tensor.col w i))
    ∧ sem auc (mean_auc n l p w).1
        = [(((List.range n).map fun i =>
             auc (Tensor.col l i) (Tensor.col p i) (Tensor.col w i)).sum) / (n : ℚ)] := by
  refine ⟨?_, ?_, sem_mean_auc auc n l p w⟩
  · rw [mean_auc_eq]
  · rw [mean_auc_eq]

/-- C7: the notebook executes as a fixed linear sequence: load the dataset,
build the model, then each train/evaluate path with evaluation after
training and printing after evaluation, each stage exactly once, and the
final act is printing the estimator metrics. -/
theorem notebook_linear_order :
    notebookTrace.indexOf Stage.load_data < notebookTrace.indexOf Stage.build_model
    ∧ notebookTrace.indexOf Stage.build_model < notebookTrace.indexOf Stage.dc_fit
    ∧ notebookTrace.indexOf Stage.dc_fit
        < notebookTrace.indexOf Stage.dc_evaluate_test
    ∧ notebookTrace.indexOf Stage.dc_evaluate_test
        < notebookTrace.indexOf Stage.dc_print_metrics
    ∧ notebookTrace.indexOf Stage.dc_print_metrics
        < notebookTrace.indexOf Stage.estimator_train
    ∧ notebookTrace.indexOf Stage.estimator_train
        < notebookTrace.indexOf Stage.estimator_evaluate_test
    ∧ notebookTrace.indexOf Stage.estimator_evaluate_test
        < notebookTrace.indexOf Stage.estimator_print_metrics
    ∧ (∀ s : Stage, notebookTrace.count s = 1)
    ∧ notebookTrace.getLast? = some Stage.estimator_print_metrics := by
  decide

/-- C3 counterexample: the run recorded in the notebook's own stored outputs
prints different evaluation statistics for the two paths — the DeepChem path
prints 0.7611497720178306 and the estimator path prints 0.7047531 — so the
two train/evaluate paths do not compute the same evaluation statistic. -/
theorem recorded_statistics_differ : dcRecordedMean ≠ estRecordedMeanAuc := by
  norm_num [dcRecordedMean, estRecordedMeanAuc]

/-- C3 (amended): the two paths compute the same kind of statistic — the
arithmetic mean of `n_tasks` per-task AUC values on the test set — and they
agree exactly when the per-task AUC values computed by the two libraries
coincide; the recorded run shows they need not coincide. -/
theorem paths_agree_if_task_aucs_agree (n : Nat) (l p w : Tensor)
    (auc : Tensor → Tensor → Tensor → ℚ) (task_auc : Nat → ℚ)
    (h : ∀ i, i < n →
      task_auc i = auc (Tensor.col l i) (Tensor.col p i) (Tensor.col w i)) :
    sem auc (mean_auc n l p w).1 = [dc_evaluate_stat n task_auc] := by
  rw [sem_mean_auc]
  have hmap : (List.range n).map task_auc
      = (List.range n).map fun i =>
          auc (Tensor.col l i) (Tensor.col p i) (Tensor.col w i) :=
    List.map_congr_left fun i hi => h i (List.mem_range.mp hi)
  simp [dc_evaluate_stat, hmap]

/-- Witness for the amended C3 theorem at a concrete instance. -/
theorem paths_agree_witness :
    sem (fun _ _ _ => (1 : ℚ) / 2)
        (mean_auc 2 (Tensor.iterX 0 100 1) (Tensor.iterY 0 100 1)
          (Tensor.iterW 0 100 1)).1
      = [dc_evaluate_stat 2 (fun _ => (1 : ℚ) / 2)] :=
  paths_agree_if_task_aucs_agree 2 (Tensor.iterX 0 100 1) (Tensor.iterY 0 100 1)
    (Tensor.iterW 0 100 1) (fun _ _ _ => (1 : ℚ) / 2) (fun _ => (1 : ℚ) / 2)
    (fun _ _ => rfl)

/-- C4: neither `input_fn` nor `mean_auc` authors any error handling: with
the underlying library calls modelled as fallible, a failure of `get_next`
or of `tf.metrics.auc` propagates unchanged to the caller, and when the
underlying calls succeed, the functions return exactly the pure results —
nothing is caught, transformed or retried. -/
theorem no_error_handling (e : String)
    (g : Except String (Tensor × Tensor × Tensor))
    (auc : Tensor → Tensor → Tensor → Except String (Tensor × Op))
    (n : Nat) (l p w : Tensor) (d : Dataset) (ep : Nat)
    (hg : g = Except.error e)
    (hauc : ∀ a b c, auc a b c = Except.error e)
    (hn : 0 < n) :
    input_fnE g = Except.error e
    ∧ mean_aucE auc n l p w = Except.error e
    ∧ input_fnE (Except.ok ((d.make_iterator 100 ep).get_next))
        = Except.ok (input_fn d ep)
    ∧ mean_aucE (fun a b c => Except.ok (tf_metrics_auc a b c)) n l p w
        = Except.ok (mean_auc n l p w) := by
  refine ⟨?_, ?_, rfl, mean_aucE_ok n l p w⟩
  · rw [hg]
    rfl
  · cases n with
    | zero => exact absurd hn (by simp)
    | succ k => exact mean_aucE_error e auc hauc k l p w

/-- Witness for C4 at a concrete instance. -/
theorem no_error_handling_witness :
    input_fnE (Except.error ("boom")) = Except.error ("boom")
    ∧ mean_aucE (fun _ _ _ => Except.error ("boom")) 2
        (Tensor.iterX 0 100 1) (Tensor.iterY 0 100 1) (Tensor.iterW 0 100 1)
        = Except.error ("boom")
    ∧ input_fnE (Except.ok ((Dataset.make_iterator ⟨0⟩ 100 1).get_next))
        = Except.ok (input_fn ⟨0⟩ 1)
    ∧ mean_aucE (fun a b c => Except.ok (tf_metrics_auc a b c)) 2
        (Tensor.iterX 0 100 1) (Tensor.iterY 0 100 1) (Tensor.iterW 0 100 1)
        = Except.ok (mean_auc 2
            (Tensor.iterX 0 100 1) (Tensor.iterY 0 100 1) (Tensor.iterW 0 100 1)) :=
  no_error_handling ("boom") (Except.error ("boom")) (fun _ _ _ => Except.error ("boom"))
    2 (Tensor.iterX 0 100 1) (Tensor.iterY 0 100 1) (Tensor.iterW 0 100 1)
    ⟨0⟩ 1 rfl (fun _ _ _ => rfl) (by decide)

/-- C5: the entire state of the two adapters is local: the global frame
threaded through a call to `input_fn` or `mean_auc` comes back unchanged,
the result of `mean_auc` depends on the frame only through the captured
`n_tasks`, `input_fn` reads nothing from the frame, and repeating a call
with the frame returned by the first call yields the identical result
(no state is kept between calls). -/
theorem state_is_local (g g2 : Globals) (d : Dataset) (ep : Nat)
    (l p w : Tensor) (h : g.n_tasks = g2.n_tasks) :
    (input_fnG g d ep).1 = g
    ∧ (input_fnG g d ep).2 = input_fn d ep
    ∧ (mean_aucG g l p w).1 = g
    ∧ (mean_aucG g l p w).2 = (mean_aucG g2 l p w).2
    ∧ mean_aucG (mean_aucG g l p w).1 l p w = mean_aucG g l p w
    ∧ input_fnG (input_fnG g d ep).1 d ep = input_fnG g d ep := by
  refine ⟨rfl, rfl, rfl, ?_, rfl, rfl⟩
  simp [mean_aucG, h]

/-- Witness for C5 at a concrete instance. -/
theorem state_is_local_witness :
    (input_fnG ⟨12, 1024, ⟨0⟩, ⟨2⟩⟩ ⟨0⟩ 100).1 = (⟨12, 1024, ⟨0⟩, ⟨2⟩⟩ : Globals)
    ∧ (input_fnG ⟨12, 1024, ⟨0⟩, ⟨2⟩⟩ ⟨0⟩ 100).2 = input_fn ⟨0⟩ 100
    ∧ (mean_aucG ⟨12, 1024, ⟨0⟩, ⟨2⟩⟩ (Tensor.iterX 0 100 1) (Tensor.iterY 0 100 1)
        (Tensor.iterW 0 100 1)).1 = (⟨12, 1024, ⟨0⟩, ⟨2⟩⟩ : Globals)
    ∧ (mean_aucG ⟨12, 1024, ⟨0⟩, ⟨2⟩⟩ (Tensor.iterX 0 100 1) (Tensor.iterY 0 100 1)
        (Tensor.iterW 0 100 1)).2
      = (mean_aucG ⟨12, 7, ⟨5⟩, ⟨6⟩⟩ (Tensor.iterX 0 100 1) (Tensor.iterY 0 100 1)
        (Tensor.iterW 0 100 1)).2
    ∧ mean_aucG (mean_aucG ⟨12, 1024, ⟨0⟩, ⟨2⟩⟩ (Tensor.iterX 0 100 1)
        (Tensor.iterY 0 100 1) (Tensor.iterW 0 100 1)).1 (Tensor.iterX 0 100 1)
        (Tensor.iterY 0 100 1) (Tensor.iterW 0 100 1)
      = mean_aucG ⟨12, 1024, ⟨0⟩, ⟨2⟩⟩ (Tensor.iterX 0 100 1) (Tensor.iterY 0 100 1)
        (Tensor.iterW 0 100 1)
    ∧ input_fnG (input_fnG ⟨12, 1024, ⟨0⟩, ⟨2⟩⟩ ⟨0⟩ 100).1 ⟨0⟩ 100
      = input_fnG ⟨12, 1024, ⟨0⟩, ⟨2⟩⟩ ⟨0⟩ 100 :=
  state_is_local ⟨12, 1024, ⟨0⟩, ⟨2⟩⟩ ⟨12, 7, ⟨5⟩, ⟨6⟩⟩ ⟨0⟩ 100
    (Tensor.iterX 0 100 1) (Tensor.iterY 0 100 1) (Tensor.iterW 0 100 1) rfl

/-- C6: neither function branches on its data: the operation structure
(skeleton) of everything `mean_auc` builds is the same for any two argument
triples of the same shape, its loop always stacks exactly `n_tasks` metric
tensors, and the structure of `input_fn`'s result (its keys and the
operation shapes of its tensors) is the same for any two datasets and epoch
counts. -/
theorem no_data_branching (n : Nat) (l p w l2 p2 w2 : Tensor)
    (d d2 : Dataset) (ep ep2 : Nat)
    (hl : l.skeleton = l2.skeleton) (hp : p.skeleton = p2.skeleton)
    (hw : w.skeleton = w2.skeleton) :
    (mean_auc n l p w).1.skeleton = (mean_auc n l2 p2 w2).1.skeleton
    ∧ (mean_auc n l p w).2.skeleton = (mean_auc n l2 p2 w2).2.skeleton
    ∧ stackedLength (mean_auc n l p w).1 = n
    ∧ (input_fn d ep).1.map Prod.fst = (input_fn d2 ep2).1.map Prod.fst
    ∧ ((input_fn d ep).1.map fun kv => kv.2.skeleton)
        = ((input_fn d2 ep2).1.map fun kv => kv.2.skeleton)
    ∧ (input_fn d ep).2.skeleton = (input_fn d2 ep2).2.skeleton := by
  refine ⟨?_, ?_, ?_, rfl, ?_, ?_⟩
  · rw [mean_auc_eq, mean_auc_eq]
    simp [Tensor.skeleton, skeletonList_eq_map, List.map_map, Function.comp,
      hl, hp, hw]
  · rw [mean_auc_eq, mean_auc_eq]
    simp [Op.skeleton, Tensor.skeleton, opSkeletonList_eq_map, List.map_map,
      Function.comp, hl, hp, hw]
  · rw [mean_auc_eq]
    simp [stackedLength]
  · simp [input_fn, Dataset.make_iterator, Iterator.get_next, Tensor.skeleton]
  · simp [input_fn, Dataset.make_iterator, Iterator.get_next, Tensor.skeleton]

/-- Witness for C6 at a concrete instance. -/
theorem no_data_branching_witness :
    (mean_auc 2 (Tensor.iterX 0 100 1) (Tensor.iterY 0 100 1)
        (Tensor.iterW 0 100 1)).1.skeleton
      = (mean_auc 2 (Tensor.iterX 7 200 3) (Tensor.iterY 7 200 3)
        (Tensor.iterW 7 200 3)).1.skeleton
    ∧ (mean_auc 2 (Tensor.iterX 0 100 1) (Tensor.iterY 0 100 1)
        (Tensor.iterW 0 100 1)).2.skeleton
      = (mean_auc 2 (Tensor.iterX 7 200 3) (Tensor.iterY 7 200 3)
        (Tensor.iterW 7 200 3)).2.skeleton
    ∧ stackedLength (mean_auc 2 (Tensor.iterX 0 100 1) (Tensor.iterY 0 100 1)
        (Tensor.iterW 0 100 1)).1 = 2
    ∧ (input_fn ⟨0⟩ 1).1.map Prod.fst = (input_fn ⟨7⟩ 100).1.map Prod.fst
    ∧ ((input_fn ⟨0⟩ 1).1.map fun kv => kv.2.skeleton)
        = ((input_fn ⟨7⟩ 100).1.map fun kv => kv.2.skeleton)
    ∧ (input_fn ⟨0⟩ 1).2.skeleton = (input_fn ⟨7⟩ 100).2.skeleton :=
  no_data_branching 2 (Tensor.iterX 0 100 1) (Tensor.iterY 0 100 1)
    (Tensor.iterW 0 100 1) (Tensor.iterX 7 200 3) (Tensor.iterY 7 200 3)
    (Tensor.iterW 7 200 3) ⟨0⟩ ⟨7⟩ 1 100 (by simp [Tensor.skeleton])
    (by simp [Tensor.skeleton]) (by simp [Tensor.skeleton])

/-- C8: for every dataset and epoch count, the keys of the mapping returned
by `input_fn` are exactly "x" and "weights", which coincide with the names
of the feature column and the weight column passed to `make_estimator`, and
the label tensor never appears among the mapping's values. -/
theorem input_fn_keys_match_columns (d : Dataset) (ep n_features n_tasks : Nat) :
    ((input_fn d ep).1.map Prod.fst)
        = ((estimatorArgs n_features n_tasks).feature_columns.map FeatureColumn.name)
          ++ [(estimatorArgs n_features n_tasks).weight_column.name]
    ∧ ((input_fn d ep).1.map Prod.fst) = ["x", "weights"]
    ∧ (∀ kv ∈ (input_fn d ep).1, kv.2 ≠ (input_fn d ep).2) := by
  refine ⟨rfl, rfl, ?_⟩
  intro kv hkv
  simp only [input_fn, Dataset.make_iterator, Iterator.get_next,
    List.mem_cons, List.not_mem_nil, or_false] at hkv
  rcases hkv with h | h
  · rw [h]
    intro hcontra
    exact Tensor.noConfusion hcontra
  · rw [h]
    intro hcontra
    exact Tensor.noConfusion hcontra

/-- Witness for C8 at a concrete instance. -/
theorem input_fn_keys_match_columns_witness :
    ((input_fn ⟨0⟩ 1).1.map Prod.fst) = ["x", "weights"]
    ∧ (("x", Tensor.iterX 0 100 1) : String × Tensor).2 ≠ (input_fn ⟨0⟩ 1).2 :=
  ⟨(input_fn_keys_match_columns ⟨0⟩ 1 1024 12).2.1,
   (input_fn_keys_match_columns ⟨0⟩ 1 1024 12).2.2 ("x", Tensor.iterX 0 100 1)
     (List.Mem.head _)⟩

/-- C9: `mean_auc`'s loop bound is the captured `n_tasks`: when the argument
tensors slice nowhere themselves, every column index sliced anywhere in the
result is below `n_tasks`; hence on concrete data in which every row has at
least `n_tasks` columns, every slice is in range (`getCol` succeeds); and
the loop stacks exactly `n_tasks` per-task metrics. -/
theorem mean_auc_slicing_safe (n : Nat) (l p w : Tensor)
    (hl : l.colIndices = []) (hp : p.colIndices = []) (hw : w.colIndices = []) :
    (∀ j ∈ (mean_auc n l p w).1.colIndices ++ (mean_auc n l p w).2.colIndices,
      j < n)
    ∧ (∀ m : List (List ℚ), (∀ row ∈ m, n ≤ row.length) →
        ∀ j ∈ (mean_auc n l p w).1.colIndices ++ (mean_auc n l p w).2.colIndices,
          (getCol m j).isSome = true)
    ∧ stackedLength (mean_auc n l p w).1 = n := by
  have hmem : ∀ j ∈ (mean_auc n l p w).1.colIndices
      ++ (mean_auc n l p w).2.colIndices, j < n := by
    intro j hj
    rw [mean_auc_eq] at hj
    simp only [List.mem_append, Tensor.colIndices, Op.colIndices] at hj
    rcases hj with hj | hj
    · exact List.mem_range.mp (mem_colIndicesList_aucMetric l p w hl hp hw _ j hj)
    · exact List.mem_range.mp (mem_opColIndicesList_aucUpdate l p w hl hp hw _ j hj)
  refine ⟨hmem, ?_, ?_⟩
  · intro m hm j hj
    have hjn := hmem j hj
    unfold getCol
    have hall : (m.all fun row => decide (j < row.length)) = true := by
      rw [List.all_eq_true]
      intro row hrow
      simp only [decide_eq_true_eq]
      exact lt_of_lt_of_le hjn (hm row hrow)
    rw [if_pos hall]
    rfl
  · rw [mean_auc_eq]
    simp [stackedLength]

/-- Witness for C9 at a concrete instance. -/
theorem mean_auc_slicing_safe_witness :
    (∀ j ∈ (mean_auc 2 (Tensor.iterX 0 100 1) (Tensor.iterY 0 100 1)
          (Tensor.iterW 0 100 1)).1.colIndices
        ++ (mean_auc 2 (Tensor.iterX 0 100 1) (Tensor.iterY 0 100 1)
          (Tensor.iterW 0 100 1)).2.colIndices, j < 2)
    ∧ (∀ m : List (List ℚ), (∀ row ∈ m, 2 ≤ row.length) →
        ∀ j ∈ (mean_auc 2 (Tensor.iterX 0 100 1) (Tensor.iterY 0 100 1)
            (Tensor.iterW 0 100 1)).1.colIndices
          ++ (mean_auc 2 (Tensor.iterX 0 100 1) (Tensor.iterY 0 100 1)
            (Tensor.iterW 0 100 1)).2.colIndices,
          (getCol m j).isSome = true)
    ∧ stackedLength (mean_auc 2 (Tensor.iterX 0 100 1) (Tensor.iterY 0 100 1)
        (Tensor.iterW 0 100 1)).1 = 2 :=
  mean_auc_slicing_safe 2 (Tensor.iterX 0 100 1) (Tensor.iterY 0 100 1)
    (Tensor.iterW 0 100 1) rfl rfl rfl

/-- C10: the mean returned by `mean_auc` is symmetric in the tasks: applying
one permutation of the task indices simultaneously to the columns of the
concrete labels, predictions and weights matrices leaves the realized mean
AUC unchanged, and the realized mean is the sum of the per-task AUC values
divided by `n_tasks` — every task contributes with coefficient `1/n_tasks`,
whatever the magnitudes in its weight column. -/
theorem mean_auc_task_symmetric (n : Nat) (f : List ℚ → List ℚ → List ℚ → ℚ)
    (L P W L2 P2 W2 : List (List ℚ)) (l p w : Tensor) (σ : Equiv.Perm (Fin n))
    (hL : ∀ i : Fin n, matCol L2 i = matCol L (σ i))
    (hP : ∀ i : Fin n, matCol P2 i = matCol P (σ i))
    (hW : ∀ i : Fin n, matCol W2 i = matCol W (σ i)) :
    estimatorMeanAuc f L2 P2 W2 n l p w = estimatorMeanAuc f L P W n l p w
    ∧ estimatorMeanAuc f L P W n l p w
        = [(∑ i : Fin n, f (matCol L i) (matCol P i) (matCol W i)) / (n : ℚ)] := by
  have key : ∀ A B C : List (List ℚ),
      estimatorMeanAuc f A B C n l p w
        = [(∑ i : Fin n, f (matCol A i) (matCol B i) (matCol C i)) / (n : ℚ)] := by
    intro A B C
    rw [estimatorMeanAuc_eq, list_range_map_sum, ← Fin.sum_univ_eq_sum_range]
  have hsum : (∑ i : Fin n, f (matCol L2 i) (matCol P2 i) (matCol W2 i))
      = ∑ i : Fin n, f (matCol L i) (matCol P i) (matCol W i) := by
    calc (∑ i : Fin n, f (matCol L2 i) (matCol P2 i) (matCol W2 i))
        = ∑ i : Fin n, f (matCol L (σ i)) (matCol P (σ i)) (matCol W (σ i)) :=
          Finset.sum_congr rfl fun i _ => by rw [hL i, hP i, hW i]
      _ = ∑ i : Fin n, f (matCol L i) (matCol P i) (matCol W i) :=
          Equiv.sum_comp σ fun i => f (matCol L i) (matCol P i) (matCol W i)
  exact ⟨by rw [key, key, hsum], key L P W⟩

/-- Witness for C10 at a concrete instance: swapping the two task columns of
a two-task instance leaves the realized mean unchanged. -/
theorem mean_auc_task_symmetric_witness :
    estimatorMeanAuc (fun a _ _ => a.sum) [[2, 1]] [[4, 3]] [[6, 5]] 2
        (Tensor.iterX 0 100 1) (Tensor.iterY 0 100 1) (Tensor.iterW 0 100 1)
      = estimatorMeanAuc (fun a _ _ => a.sum) [[1, 2]] [[3, 4]] [[5, 6]] 2
        (Tensor.iterX 0 100 1) (Tensor.iterY 0 100 1) (Tensor.iterW 0 100 1)
    ∧ estimatorMeanAuc (fun a _ _ => a.sum) [[1, 2]] [[3, 4]] [[5, 6]] 2
        (Tensor.iterX 0 100 1) (Tensor.iterY 0 100 1) (Tensor.iterW 0 100 1)
      = [(∑ i : Fin 2, ((matCol [[1, 2]] i).sum)) / (2 : ℚ)] :=
  mean_auc_task_symmetric 2 (fun a _ _ => a.sum) [[1, 2]] [[3, 4]] [[5, 6]]
    [[2, 1]] [[4, 3]] [[6, 5]] (Tensor.iterX 0 100 1) (Tensor.iterY 0 100 1)
    (Tensor.iterW 0 100 1) (Equiv.swap 0 1) (by decide) (by decide) (by decide)

end Estimators
